import Mathlib

/-!
Verification of the document identity, revision, and reconciliation model of
the matheditor repository, as a shallow embedding of the TypeScript sources:

* `src/components/DocumentInfo.tsx` — divergence detection (`unsavedChanges`,
  `isHeadOutOfSync`) and the merged revision list shown to the user;
* the `EditDocumentInfo` component — the derived collaborator list of a
  collaborative cloud document;
* `src/components/Documents.tsx` — the portable bundle codec
  (`tryParseFile`), duplicate handling (`addDocument`) and `backup`;
* the `StickyComponent` — the nested state embedding bridge.

Strings stay strings; JS timestamps (`new Date(x).getTime()`) are modelled as
natural numbers; JSON values parsed by `JSON.parse` are modelled by the
inductive `Json` with object fields kept in document order.
-/

/-- A user as carried by cloud documents and cloud revisions
(only the fields the reconciliation logic reads). -/
structure MUser where
  id : String
  name : String
deriving DecidableEq, Repr

/-- The on-device representation of a document
(`LocalDocument` in `src/types`): fields read by `DocumentInfo`. -/
structure LocalDocument where
  id : String
  name : String
  head : String
  updatedAt : Nat
deriving DecidableEq, Repr

/-- A cloud revision: immutable snapshot fetched from the server,
always carrying its author. -/
structure CloudRevision where
  id : String
  documentId : String
  createdAt : Nat
  author : MUser
deriving DecidableEq, Repr

/-- A local revision from the on-device revision table; local revisions
carry no author. -/
structure LocalRevision where
  id : String
  documentId : String
  createdAt : Nat
deriving DecidableEq, Repr

/-- The server-authoritative view of a document (`CloudDocument`). -/
structure CloudDocument where
  id : String
  head : String
  author : MUser
  coauthors : List MUser
  revisions : List CloudRevision
  published : Bool
  collab : Bool
deriving DecidableEq, Repr

/-- The merged projection consumed by the UI: a document that exists
locally, in the cloud, or in both places (`UserDocument`).  The source
field `local` is a reserved word in Lean and is spelled `localDoc` here. -/
structure UserDocument where
  id : String
  localDoc : Option LocalDocument
  cloud : Option CloudDocument
deriving DecidableEq, Repr

/-- An element of the union of local and cloud revisions
(`UserDocumentRevision = LocalDocumentRevision | CloudDocumentRevision`);
a local revision has no author, modelled as `author = none`. -/
structure UserRevision where
  id : String
  documentId : String
  createdAt : Nat
  author : Option MUser
deriving DecidableEq, Repr

/-- Injection of a cloud revision into the union type. -/
def CloudRevision.toUser (r : CloudRevision) : UserRevision :=
  ⟨r.id, r.documentId, r.createdAt, some r.author⟩

/-- Injection of a local revision into the union type. -/
def LocalRevision.toUser (r : LocalRevision) : UserRevision :=
  ⟨r.id, r.documentId, r.createdAt, none⟩

/-- An entry of the revision list rendered by `DocumentInfo`.  The
synthesized "unsaved" placeholder is built from `localDocument?.head`,
`localDocument?.id` and `localDocument?.updatedAt`, each of which is
`undefined` when the local side is absent, and it never carries an
author (the implicit local user); hence every field is optional. -/
structure DisplayRevision where
  id : Option String
  documentId : Option String
  createdAt : Option Nat
  author : Option MUser
deriving DecidableEq, Repr

/-- Injection of a real (local or cloud) revision into the display type. -/
def UserRevision.toDisplay (r : UserRevision) : DisplayRevision :=
  ⟨some r.id, some r.documentId, some r.createdAt, r.author⟩

/-- DocumentInfo line 38-39: start from the cloud revision list and push
each local revision whose id is not already present. -/
def unionRevisions (cloudRevs localRevs : List UserRevision) : List UserRevision :=
  localRevs.foldl
    (fun acc r => if acc.any (fun x => x.id == r.id) then acc else acc ++ [r])
    cloudRevs

/-- The ordering used by DocumentInfo line 40: the JS comparator
(a, b) => b.createdAt - a.createdAt sorts by `createdAt` descending. -/
def revGe (a b : UserRevision) : Prop := b.createdAt ≤ a.createdAt

instance : DecidableRel revGe := fun a b => Nat.decLe b.createdAt a.createdAt

instance : IsTotal UserRevision revGe :=
  ⟨fun a b => Nat.le_total b.createdAt a.createdAt⟩

instance : IsTrans UserRevision revGe :=
  ⟨fun _ _ _ hab hbc => Nat.le_trans hbc hab⟩

/-- DocumentInfo line 40: `[...revisions].sort((a, b) => ...)`.
JavaScript `Array.prototype.sort` is stable, so its result is the unique
stable reordering that is sorted by `createdAt` descending; we model it
with the stable `List.insertionSort`. -/
def sortRevisions (revs : List UserRevision) : List UserRevision :=
  List.insertionSort revGe revs

/-- The merged, ordered revision list of DocumentInfo (before the unsaved
placeholder is prepended). -/
def mergedRevisionList (cloudRevs : List CloudRevision) (localRevs : List LocalRevision) :
    List UserRevision :=
  sortRevisions
    (unionRevisions (cloudRevs.map CloudRevision.toUser) (localRevs.map LocalRevision.toUser))

/-- The reconciliation result computed by the `DocumentInfo` component. -/
structure Reconciliation where
  unsavedChanges : Bool
  isHeadOutOfSync : Bool
  sortedRevisions : List DisplayRevision
deriving DecidableEq, Repr

/-- Shallow embedding of the derivations in `DocumentInfo`
(src/components/DocumentInfo.tsx lines 17-46): inputs are the component's
`documentId` prop and the relevant store state (`state.documents`,
`state.revisions`). -/
def documentInfo (documentId : String) (documents : List UserDocument)
    (localRevisions : List LocalRevision) : Reconciliation :=
  let userDocument := documents.find? (fun d => d.id == documentId)
  let localDocument := userDocument.bind UserDocument.localDoc
  let cloudDocument := userDocument.bind UserDocument.cloud
  let localDocumentRevisions := localRevisions.filter (fun r => r.documentId == documentId)
  let cloudDocumentRevisions := (cloudDocument.map CloudDocument.revisions).getD []
  let headOpt := localDocument.map LocalDocument.head
  let isHeadLocalRevision :=
    localDocumentRevisions.any (fun r => (some r.id : Option String) == headOpt)
  let isHeadCloudRevision :=
    cloudDocumentRevisions.any (fun r => (some r.id : Option String) == headOpt)
  let unsavedChanges := !isHeadLocalRevision && !isHeadCloudRevision
  let isUploaded := localDocument.isSome && cloudDocument.isSome
  let isHeadOutOfSync :=
    isUploaded &&
      (localDocument.map LocalDocument.head != cloudDocument.map CloudDocument.head)
  let sorted := (mergedRevisionList cloudDocumentRevisions localDocumentRevisions).map
    UserRevision.toDisplay
  let unsavedRevision : DisplayRevision :=
    ⟨headOpt, localDocument.map LocalDocument.id, localDocument.map LocalDocument.updatedAt,
      none⟩
  ⟨unsavedChanges, isHeadOutOfSync,
    if unsavedChanges then unsavedRevision :: sorted else sorted⟩

/-- EditDocumentInfo collaborator reduction step: push the revision author
when it is neither the document author, nor a coauthor, nor already
collected. -/
def collabStep (d : CloudDocument) (acc : List MUser) (rev : CloudRevision) : List MUser :=
  if rev.author.id != d.author.id
      && !(d.coauthors.any (fun u => u.id == rev.author.id))
      && !(acc.any (fun u => u.id == rev.author.id))
  then acc ++ [rev.author] else acc

/-- EditDocumentInfo: `isCollab = published && collab`; for a collaborative
document the collaborators are derived by reducing over the revision list,
otherwise the list is empty. -/
def collaborators (d : CloudDocument) : List MUser :=
  if d.published && d.collab then d.revisions.foldl (collabStep d) [] else []

/-- A user who is neither the document author nor a listed coauthor. -/
def isOutsideAuthor (d : CloudDocument) (u : MUser) : Bool :=
  u.id != d.author.id && !(d.coauthors.any (fun v => v.id == u.id))

/-- Deduplication by user id keeping the first occurrence, the ordering the
specification describes for the derived collaborator set. -/
def dedupById : List MUser → List MUser
  | [] => []
  | u :: us => u :: dedupById (us.filter (fun v => v.id != u.id))
termination_by l => l.length
decreasing_by
  simp only [List.length_cons]
  exact Nat.lt_succ_of_le (List.length_filter_le _ _)

/-- A JSON value as produced by `JSON.parse`, with object fields in
document order.  `undefined` is not a JSON value, so absent properties are
modelled by `Option` at the access sites. -/
inductive Json where
  | jnull : Json
  | jbool : Bool → Json
  | jnum : Int → Json
  | jstr : String → Json
  | jarr : List Json → Json
  | jobj : List (String × Json) → Json

/-- Split a character list on the dash character. -/
def splitOnDash : List Char → List (List Char)
  | [] => [[]]
  | c :: cs =>
    let r := splitOnDash cs
    if c = '-' then [] :: r
    else match r with
      | g :: gs => (c :: g) :: gs
      | [] => [[c]]

/-- A lowercase hexadecimal digit. -/
def isHexLower (c : Char) : Bool :=
  ('0' ≤ c && c ≤ '9') || ('a' ≤ c && c ≤ 'f')

/-- The `validate` function of the `uuid` package: the string matches the
case-insensitive UUID regular expression (five dash-separated hex groups of
lengths 8-4-4-4-12, version digit 1-5, variant digit 8, 9, a or b), or is
the nil UUID. -/
def validateUUID (s : String) : Bool :=
  let cs := s.toList.map Char.toLower
  if cs = "00000000-0000-0000-0000-000000000000".toList then true
  else match splitOnDash cs with
    | [a, b, c, d, e] =>
      a.length == 8 && b.length == 4 && c.length == 4 && d.length == 4 && e.length == 12
        && (a ++ b ++ c ++ d ++ e).all isHexLower
        && (match c with
            | v :: _ => '1' ≤ v && v ≤ '5'
            | [] => false)
        && (match d with
            | v :: _ => v == '8' || v == '9' || v == 'a' || v == 'b'
            | [] => false)
    | _ => false

/-- Reading the `id` property of a parsed value (`data.id`, `document.id`):
on `null` the access throws a TypeError (`error`); on an object it yields
the `id` field if present; on any other value it yields `undefined`,
modelled as `none`. -/
def Json.idAttr : Json → Except Unit (Option Json)
  | .jnull => .error ()
  | .jobj fs => .ok (fs.lookup "id")
  | _ => .ok none

/-- The value of the `id` property of a parsed value when the access does
not throw (absent property and non-object access give `undefined`). -/
def Json.idOpt : Json → Option Json
  | .jobj fs => fs.lookup "id"
  | _ => none

/-- Documents.tsx line 61/66: `validate(…id)`; the `uuid` validator accepts
only strings matching the UUID pattern, anything else (absent property,
non-string value) is invalid. -/
def validateJson : Option Json → Bool
  | some (.jstr s) => validateUUID s
  | _ => false

/-- The id property as checked and read at validated call sites
(`document.id` is then a UUID string). -/
def Json.docId : Json → String
  | .jobj fs =>
    match fs.lookup "id" with
    | some (.jstr s) => s
    | _ => ""
  | _ => ""

/-- Whether reading `v.id` succeeds and yields a valid UUID string. -/
def jsonIdValid (v : Json) : Bool :=
  match v.idAttr with
  | .error _ => false
  | .ok idj => validateJson idj

/-- Whether the value is JSON `null`. -/
def Json.isNull : Json → Bool
  | .jnull => true
  | _ => false

/-- Documents.tsx line 65: `Object.values(data)` — the field values of an
object, the elements of an array, and nothing for primitives (the claims
never exercise the character list of a string). -/
def jsValues : Json → List Json
  | .jobj fs => fs.map Prod.snd
  | .jarr es => es
  | _ => []

/-- A document held by the local store (`state.documents` entries as seen
by the duplicate check `d.id === document.id && d.local`). -/
structure StoredDoc where
  id : String
  value : Json
  isLocal : Bool

/-- The effects of one `tryParseFile` call: `accepted` records the values
the decoder treated as documents (the arguments handed to `addDocument`),
`created` the `createLocalDocument` dispatches, `alerts` the duplicate
confirmation dialogs (document, navigateTo), `navs` the navigations
performed, `announces` the number of "Invalid file" notices, and `ret` the
function's return value. -/
structure ParseResult where
  accepted : List Json
  created : List Json
  alerts : List (Json × Bool)
  navs : List String
  announces : Nat
  ret : Option Json

/-- The empty effect record at the start of a `tryParseFile` call. -/
def ParseResult.empty : ParseResult := ⟨[], [], [], [], 0, none⟩

/-- Documents.tsx lines 75-87 (`addDocument`): if a local document with the
same id already exists in the `documents` snapshot, only a confirmation
alert is raised; otherwise the document is created and, when requested,
navigation follows the creation. -/
def addDocument (documents : List StoredDoc) (doc : Json) (navigateTo : Bool)
    (r : ParseResult) : ParseResult :=
  let r := { r with accepted := r.accepted ++ [doc] }
  if documents.any (fun d => d.id == doc.docId && d.isLocal) then
    { r with alerts := r.alerts ++ [(doc, navigateTo)] }
  else
    { r with created := r.created ++ [doc],
             navs := r.navs ++ if navigateTo then [doc.docId] else [] }

/-- Documents.tsx line 65-67: the `forEach` over `Object.values(data)`.
Reading `document.id` of a `null` entry throws; the exception escapes the
loop and is caught by the surrounding `catch`, which announces once and
abandons the remaining values. -/
def importValues (documents : List StoredDoc) : List Json → ParseResult → ParseResult
  | [], r => r
  | v :: vs, r =>
    match v.idAttr with
    | .error _ => { r with announces := r.announces + 1 }
    | .ok idj =>
      importValues documents vs
        (if validateJson idj then addDocument documents v false r else r)

/-- Documents.tsx lines 57-73 (`tryParseFile`): the input is the outcome of
`JSON.parse` on the file text (`error` when the text is unparseable, which
the `catch` turns into one announce).  A parseable value with a valid
top-level id is treated as a single document; otherwise all top-level
values are iterated. -/
def tryParseFile (parsed : Except Unit Json) (documents : List StoredDoc) : ParseResult :=
  match parsed with
  | .error _ => { ParseResult.empty with announces := 1 }
  | .ok data =>
    match data.idAttr with
    | .error _ => { ParseResult.empty with announces := 1 }
    | .ok idj =>
      if validateJson idj then
        let r := addDocument documents data true ParseResult.empty
        { r with ret := some data }
      else
        importValues documents (jsValues data) ParseResult.empty

/-- The local document store after the dispatched creations of a
`tryParseFile` call have been applied. -/
def finalStore (documents : List StoredDoc) (r : ParseResult) : List StoredDoc :=
  documents ++ r.created.map (fun v => ⟨v.docId, v, true⟩)

/-- Documents.tsx lines 89-107 (`backup`): `JSON.stringify` of the array
returned by `documentDB.getAll()`; reimporting parses that text back to
the same array (the external JSON codec round-trips), so the reimported
bundle is the array of the stored documents. -/
def backupJson (docs : List Json) : Json := .jarr docs

/-- An effect of the overwrite action attached to a duplicate alert. -/
inductive ImportEvent where
  | update : String → ImportEvent
  | navigate : String → ImportEvent
deriving DecidableEq, Repr

/-- Documents.tsx line 80: the action dispatched when the user confirms the
overwrite: `updateLocalDocument({id, partial: document})` replaces the
stored content (the partial here is the complete imported document), and
the `.then` navigates only after that update resolves — the returned event
list records this order. -/
def overwriteAction (documents : List StoredDoc) (doc : Json) (navigateTo : Bool) :
    List StoredDoc × List ImportEvent :=
  (documents.map (fun d =>
      if d.id == doc.docId && d.isLocal then { d with value := doc } else d),
   ImportEvent.update doc.docId ::
     (if navigateTo then [ImportEvent.navigate doc.docId] else []))

/-- Dismissing the duplicate alert runs no action: the store is untouched. -/
def declineAction (documents : List StoredDoc) : List StoredDoc := documents

/-- The nested state embedding bridge of `StickyComponent` (lines 57-67 of
the sticky node source).  A serialized sub-document payload and the
sub-editor's live state are both modelled by their canonical JSON
serialization: the guard compares `JSON.stringify` of the current state
with `JSON.stringify` of the incoming payload, and
`parseEditorState(JSON.stringify(data))` followed by `toJSON` reproduces
the payload.  Given the incoming payload (absent when the node has no
data) and the current state, the result is the new state together with
whether a reset (`setEditorState`) was performed. -/
def stickyDataEffect (data : Option String) (state : String) : String × Bool :=
  match data with
  | none => (state, false)
  | some d => if state = d then (state, false) else (d, true)

/-- A user not excluded from the collaborator set: neither the document
author nor a listed coauthor (used to state what `collaborators`
computes). -/
def addUniqueUser (acc : List MUser) (u : MUser) : List MUser :=
  if acc.any (fun v => v.id == u.id) then acc else acc ++ [u]

/-- The C3 counterexample: one cloud revision and two local revisions, all
with the same `createdAt`. -/
def cexCloudRevs : List CloudRevision := [⟨"b", "d", 5, ⟨"u1", "U1"⟩⟩]

/-- The local side of the C3 counterexample. -/
def cexLocalRevs : List LocalRevision := [⟨"c", "d", 5⟩, ⟨"a", "d", 5⟩]

/-- The collaborative cloud document of the C4 example: author U1,
coauthors [U2], revisions authored by U1, U2, U3, U3, U1. -/
def c4ExampleDoc : CloudDocument :=
  ⟨"d", "h", ⟨"u1", "U1"⟩, [⟨"u2", "U2"⟩],
    [⟨"r1", "d", 1, ⟨"u1", "U1"⟩⟩, ⟨"r2", "d", 2, ⟨"u2", "U2"⟩⟩,
     ⟨"r3", "d", 3, ⟨"u3", "U3"⟩⟩, ⟨"r4", "d", 4, ⟨"u3", "U3"⟩⟩,
     ⟨"r5", "d", 5, ⟨"u1", "U1"⟩⟩], true, true⟩

/-- The C5 bundle: parseable, but no entry carries a valid document id. -/
def c5Bundle : Json := .jobj [("foo", .jobj [("id", .jstr "not-a-uuid")])]

/-- A store with one pre-existing local document, used to observe that the
C5 import leaves it untouched. -/
def c5Store : List StoredDoc :=
  [⟨"123e4567-e89b-12d3-a456-426614174000", .jstr "existing content", true⟩]

/-- A document whose id is a syntactically valid UUID. -/
def validDoc : Json :=
  .jobj [("id", .jstr "123e4567-e89b-12d3-a456-426614174000"), ("name", .jstr "doc")]

/-- The C6 counterexample bundle: a top-level `null` value followed by a
perfectly valid document. -/
def c6Bundle : Json := .jobj [("a", .jnull), ("b", validDoc)]

/-- A bundle with one valid document and one invalid non-null entry, used
to witness the amended C6 decoder behaviour. -/
def c6WitnessBundle : Json := .jobj [("a", validDoc), ("b", .jstr "junk")]

/-- A second document with a distinct valid UUID, for the backup
round-trip witness. -/
def validDoc2 : Json :=
  .jobj [("id", .jstr "7c9e6679-7425-40de-944b-e07fc1f90ae7"), ("name", .jstr "doc2")]


example : validateUUID "123e4567-e89b-12d3-a456-426614174000" = true := by decide

example : validateUUID "not-a-uuid" = false := by decide

example : validateUUID "00000000-0000-0000-0000-000000000000" = true := by decide

example : validateUUID "123E4567-E89B-12D3-A456-426614174000" = true := by decide

example : validateUUID "123e4567-e89b-62d3-a456-426614174000" = false := by decide

/-- Handing a document to `addDocument` appends it to `accepted` and
leaves `announces` unchanged, whichever branch is taken. -/
theorem addDocument_accepted (documents : List StoredDoc) (doc : Json) (nav : Bool)
    (r : ParseResult) :
    (addDocument documents doc nav r).accepted = r.accepted ++ [doc]
    ∧ (addDocument documents doc nav r).announces = r.announces := by
  unfold addDocument
  by_cases h : documents.any (fun d => d.id == doc.docId && d.isLocal) <;> simp [h]

/-- A value that is not JSON `null` never throws on `id` access. -/
theorem idAttr_ok_of_not_null (v : Json) (h : v.isNull = false) :
    v.idAttr = .ok v.idOpt := by
  cases v <;> first
  | rfl
  | (exfalso; simp [Json.isNull] at h)

/-- Validity of the id read through `idAttr` agrees with `jsonIdValid` on
non-null values. -/
theorem jsonIdValid_of_not_null (v : Json) (h : v.isNull = false) :
    jsonIdValid v = validateJson v.idOpt := by
  unfold jsonIdValid
  rw [idAttr_ok_of_not_null v h]

/-- Unfolding `importValues` over a value whose id access succeeds. -/
theorem importValues_cons_ok (documents : List StoredDoc) (v : Json) (vs : List Json)
    (r : ParseResult) (idj : Option Json) (h : v.idAttr = .ok idj) :
    importValues documents (v :: vs) r =
      importValues documents vs
        (if validateJson idj then addDocument documents v false r else r) := by
  have hstep : importValues documents (v :: vs) r =
      match v.idAttr with
      | .error _ => { r with announces := r.announces + 1 }
      | .ok idj =>
        importValues documents vs
          (if validateJson idj then addDocument documents v false r else r) := rfl
  rw [hstep, h]

/-- Unfolding `importValues` over a value whose id access throws. -/
theorem importValues_cons_err (documents : List StoredDoc) (v : Json) (vs : List Json)
    (r : ParseResult) (h : v.idAttr = .error ()) :
    importValues documents (v :: vs) r = { r with announces := r.announces + 1 } := by
  have hstep : importValues documents (v :: vs) r =
      match v.idAttr with
      | .error _ => { r with announces := r.announces + 1 }
      | .ok idj =>
        importValues documents vs
          (if validateJson idj then addDocument documents v false r else r) := rfl
  rw [hstep, h]

/-- On a null-free value list, the `forEach` runs to completion: the
accepted values are exactly those with a valid id, and no notice fires. -/
theorem importValues_no_null (documents : List StoredDoc) (vs : List Json)
    (r : ParseResult) (hnull : vs.all (fun v => !v.isNull) = true) :
    (importValues documents vs r).accepted = r.accepted ++ vs.filter jsonIdValid
    ∧ (importValues documents vs r).announces = r.announces := by
  induction vs generalizing r with
  | nil => simp [importValues]
  | cons v vs ih =>
    simp only [List.all_cons, Bool.and_eq_true, Bool.not_eq_true'] at hnull
    obtain ⟨hv, hvs⟩ := hnull
    rw [importValues_cons_ok documents v vs r v.idOpt (idAttr_ok_of_not_null v hv)]
    have hvalid := jsonIdValid_of_not_null v hv
    by_cases hval : validateJson v.idOpt = true
    · rw [if_pos hval]
      obtain ⟨ha1, ha2⟩ := addDocument_accepted documents v false r
      obtain ⟨hi1, hi2⟩ := ih (addDocument documents v false r) hvs
      refine ⟨?_, ?_⟩
      · rw [hi1, ha1, List.filter_cons_of_pos (by rw [hvalid]; exact hval),
          List.append_assoc, List.singleton_append]
      · rw [hi2, ha2]
    · rw [if_neg hval]
      obtain ⟨hi1, hi2⟩ := ih r hvs
      refine ⟨?_, ?_⟩
      · rw [hi1, List.filter_cons_of_neg (by rw [hvalid]; exact hval)]
      · exact hi2

/-- A `null` value after a null-free prefix aborts the `forEach`: the
prefix is processed normally, one notice fires, and the rest of the list
is never visited. -/
theorem importValues_null_abort (documents : List StoredDoc) (pre rest : List Json)
    (r : ParseResult) (hnull : pre.all (fun v => !v.isNull) = true) :
    importValues documents (pre ++ Json.jnull :: rest) r =
      { importValues documents pre r with
          announces := (importValues documents pre r).announces + 1 } := by
  induction pre generalizing r with
  | nil =>
    rw [List.nil_append, importValues_cons_err documents Json.jnull rest r rfl]
    rfl
  | cons v vs ih =>
    simp only [List.all_cons, Bool.and_eq_true, Bool.not_eq_true'] at hnull
    obtain ⟨hv, hvs⟩ := hnull
    rw [List.cons_append,
      importValues_cons_ok documents v (vs ++ Json.jnull :: rest) r v.idOpt
        (idAttr_ok_of_not_null v hv),
      importValues_cons_ok documents v vs r v.idOpt (idAttr_ok_of_not_null v hv),
      ih _ hvs]

/-- Every value the decoder ever accepts has a valid id. -/
theorem importValues_accepted_valid (documents : List StoredDoc) (vs : List Json)
    (r : ParseResult) (hr : ∀ v ∈ r.accepted, jsonIdValid v = true) :
    ∀ v ∈ (importValues documents vs r).accepted, jsonIdValid v = true := by
  induction vs generalizing r with
  | nil => exact hr
  | cons v vs ih =>
    match hok : v.idAttr with
    | .error e =>
      cases e
      rw [importValues_cons_err documents v vs r hok]
      exact hr
    | .ok idj =>
      rw [importValues_cons_ok documents v vs r idj hok]
      by_cases hval : validateJson idj = true
      · rw [if_pos hval]
        refine ih (addDocument documents v false r) ?_
        intro w hw
        rw [(addDocument_accepted documents v false r).1] at hw
        rcases List.mem_append.mp hw with h | h
        · exact hr w h
        · have hw' : w = v := by simpa using h
          subst hw'
          unfold jsonIdValid
          rw [hok]
          exact hval
      · rw [if_neg hval]
        exact ih r hr

/-- Importing into an empty store snapshot creates every accepted value:
the duplicate check `documents.find(...)` runs against the render-time
snapshot, which is empty. -/
theorem addDocument_empty_store (doc : Json) (nav : Bool) (r : ParseResult) :
    addDocument [] doc nav r =
      { r with accepted := r.accepted ++ [doc], created := r.created ++ [doc],
               navs := r.navs ++ if nav then [doc.docId] else [] } := by
  unfold addDocument
  simp

/-- Running the import loop against an empty snapshot with all-valid
values accepts and creates exactly those values, in order, with no
alerts, no navigations and no notices. -/
theorem importValues_empty_store (vs : List Json) (r : ParseResult)
    (hvalid : vs.all jsonIdValid = true) :
    importValues [] vs r =
      { r with accepted := r.accepted ++ vs, created := r.created ++ vs } := by
  induction vs generalizing r with
  | nil => simp [importValues]
  | cons v vs ih =>
    simp only [List.all_cons, Bool.and_eq_true] at hvalid
    obtain ⟨hv, hvs⟩ := hvalid
    have hnotnull : v.isNull = false := by
      cases v <;> first
      | rfl
      | (exfalso; revert hv; unfold jsonIdValid Json.idAttr; simp)
    have hok := idAttr_ok_of_not_null v hnotnull
    have hval : validateJson v.idOpt = true := by
      rw [← jsonIdValid_of_not_null v hnotnull]
      exact hv
    rw [importValues_cons_ok [] v vs r v.idOpt hok, if_pos hval,
      addDocument_empty_store v false r, ih _ hvs]
    simp

/-- Unfolding `tryParseFile` when the top-level id access succeeds. -/
theorem tryParseFile_ok_idj (data : Json) (store : List StoredDoc) (idj : Option Json)
    (h : data.idAttr = .ok idj) :
    tryParseFile (.ok data) store =
      if validateJson idj then
        { addDocument store data true ParseResult.empty with ret := some data }
      else importValues store (jsValues data) ParseResult.empty := by
  have hstep : tryParseFile (.ok data) store =
      match data.idAttr with
      | .error _ => { ParseResult.empty with announces := 1 }
      | .ok idj =>
        if validateJson idj then
          { addDocument store data true ParseResult.empty with ret := some data }
        else importValues store (jsValues data) ParseResult.empty := rfl
  rw [hstep, h]

/-- C5 counterexample: the bundle text is parseable but contains no entry
with a valid document id; the claim asserts an InvalidBundle-class notice
is produced, but the only announce sits in the catch handler, which this
parseable, non-throwing input never reaches — no notice fires.  Zero
documents are imported and the store is left unchanged, as the claim
also says. -/
theorem tryParseFile_invalidBundle_cex :
    (tryParseFile (.ok c5Bundle) c5Store).announces = 0
    ∧ (tryParseFile (.ok c5Bundle) c5Store).accepted = []
    ∧ (tryParseFile (.ok c5Bundle) c5Store).created = []
    ∧ finalStore c5Store (tryParseFile (.ok c5Bundle) c5Store) = c5Store :=
  ⟨rfl, rfl, rfl, rfl⟩

/-- C5, amended: for any starting store, parsing the bundle
containing no valid document id yields no accepted document, no creation,
no alert, no navigation and no notice, and leaves the store unchanged. -/
theorem tryParseFile_invalidBundle (store : List StoredDoc) :
    tryParseFile (.ok c5Bundle) store = ParseResult.empty
    ∧ finalStore store (tryParseFile (.ok c5Bundle) store) = store := by
  have h : tryParseFile (.ok c5Bundle) store = ParseResult.empty := rfl
  refine ⟨h, ?_⟩
  rw [h]
  simp [finalStore, ParseResult.empty]

/-- C6 counterexample: a bundle with a top-level `null` value followed by
a document with a perfectly valid UUID.  The claim says every value with
a valid id is imported and failing values are silently skipped; in the
code, reading `null.id` throws, the notice fires, and the valid document
that follows is never imported. -/
theorem tryParseFile_nullValue_cex :
    (tryParseFile (.ok c6Bundle) []).accepted = []
    ∧ (tryParseFile (.ok c6Bundle) []).created = []
    ∧ (tryParseFile (.ok c6Bundle) []).announces = 1
    ∧ jsonIdValid validDoc = true
    ∧ validDoc ∈ jsValues c6Bundle := by
  refine ⟨rfl, rfl, rfl, rfl, ?_⟩
  show validDoc ∈ [Json.jnull, validDoc]
  exact List.mem_cons_of_mem _ (List.mem_cons_self _ _)

/-- C6, amended: the decoder treats a parsed value with a valid top-level
id as the single accepted document; otherwise it iterates the top-level
values, accepting exactly those with valid ids and silently skipping the
rest, as long as no value is JSON `null` — a `null` value throws on id
access, which surfaces as one "Invalid file" notice and abandons the
remaining values; on every path only values with valid ids are
accepted. -/
theorem tryParseFile_decode (data : Json) (store : List StoredDoc) :
    (∀ idj, data.idAttr = .ok idj → validateJson idj = true →
      (tryParseFile (.ok data) store).accepted = [data])
    ∧ (∀ idj, data.idAttr = .ok idj → validateJson idj = false →
        (jsValues data).all (fun v => !v.isNull) = true →
        (tryParseFile (.ok data) store).accepted = (jsValues data).filter jsonIdValid
          ∧ (tryParseFile (.ok data) store).announces = 0)
    ∧ (∀ pre rest idj, data.idAttr = .ok idj → validateJson idj = false →
        jsValues data = pre ++ Json.jnull :: rest →
        pre.all (fun v => !v.isNull) = true →
        (tryParseFile (.ok data) store).accepted = pre.filter jsonIdValid
          ∧ (tryParseFile (.ok data) store).announces = 1)
    ∧ (∀ v ∈ (tryParseFile (.ok data) store).accepted, jsonIdValid v = true) := by
  refine ⟨?_, ?_, ?_, ?_⟩
  · intro idj h1 h2
    rw [tryParseFile_ok_idj data store idj h1, if_pos h2]
    have := (addDocument_accepted store data true ParseResult.empty).1
    simpa [ParseResult.empty] using this
  · intro idj h1 h2 hnull
    rw [tryParseFile_ok_idj data store idj h1, if_neg (by rw [h2]; simp)]
    obtain ⟨ha, hb⟩ := importValues_no_null store (jsValues data) ParseResult.empty hnull
    exact ⟨by simpa [ParseResult.empty] using ha, by simpa [ParseResult.empty] using hb⟩
  · intro pre rest idj h1 h2 hsplit hnull
    rw [tryParseFile_ok_idj data store idj h1, if_neg (by rw [h2]; simp), hsplit,
      importValues_null_abort store pre rest ParseResult.empty hnull]
    obtain ⟨ha, hb⟩ := importValues_no_null store pre ParseResult.empty hnull
    constructor
    · simpa [ParseResult.empty] using ha
    · simp only []
      rw [hb]
      rfl
  · match hok : data.idAttr with
    | .error e =>
      cases e
      have h : tryParseFile (.ok data) store = { ParseResult.empty with announces := 1 } := by
        have hstep : tryParseFile (.ok data) store =
            match data.idAttr with
            | .error _ => { ParseResult.empty with announces := 1 }
            | .ok idj =>
              if validateJson idj then
                { addDocument store data true ParseResult.empty with ret := some data }
              else importValues store (jsValues data) ParseResult.empty := rfl
        rw [hstep, hok]
      rw [h]
      intro v hv
      simp [ParseResult.empty] at hv
    | .ok idj =>
      rw [tryParseFile_ok_idj data store idj hok]
      by_cases hval : validateJson idj = true
      · rw [if_pos hval]
        intro v hv
        have : v ∈ (addDocument store data true ParseResult.empty).accepted := hv
        rw [(addDocument_accepted store data true ParseResult.empty).1] at this
        have hv' : v = data := by simpa [ParseResult.empty] using this
        subst hv'
        unfold jsonIdValid
        rw [hok]
        exact hval
      · rw [if_neg hval]
        exact importValues_accepted_valid store (jsValues data) ParseResult.empty
          (by intro v hv; simp [ParseResult.empty] at hv)

/-- Witness for the amended C6 decoder theorem at a concrete bundle with
one valid document and one invalid non-null entry. -/
theorem tryParseFile_decode_witness :
    (tryParseFile (.ok c6WitnessBundle) []).accepted =
        (jsValues c6WitnessBundle).filter jsonIdValid
    ∧ (tryParseFile (.ok c6WitnessBundle) []).announces = 0 :=
  (tryParseFile_decode c6WitnessBundle []).2.1 none rfl rfl rfl

/-- C7: backing up a store of documents with valid UUID ids and
reimporting the resulting bundle into an empty store recreates local
documents identical in content and id to the originals, with no alert and
no notice. -/
theorem backup_roundtrip (docs : List Json) (hvalid : docs.all jsonIdValid = true)
    (hnodup : (docs.map Json.docId).Nodup) :
    (tryParseFile (.ok (backupJson docs)) []).created = docs
    ∧ (tryParseFile (.ok (backupJson docs)) []).alerts = []
    ∧ (tryParseFile (.ok (backupJson docs)) []).announces = 0
    ∧ finalStore [] (tryParseFile (.ok (backupJson docs)) []) =
        docs.map (fun v => ⟨v.docId, v, true⟩) := by
  rw [tryParseFile_ok_idj (backupJson docs) [] none rfl, if_neg (by simp [validateJson]),
    show jsValues (backupJson docs) = docs from rfl,
    importValues_empty_store docs ParseResult.empty hvalid]
  refine ⟨by simp [ParseResult.empty], by simp [ParseResult.empty],
    by simp [ParseResult.empty], ?_⟩
  simp [finalStore, ParseResult.empty]

/-- Witness for the backup round-trip at two concrete documents with
distinct valid UUIDs. -/
theorem backup_roundtrip_witness :
    ([validDoc, validDoc2].all jsonIdValid = true)
    ∧ ([validDoc, validDoc2].map Json.docId).Nodup
    ∧ (tryParseFile (.ok (backupJson [validDoc, validDoc2])) []).created =
        [validDoc, validDoc2]
    ∧ finalStore [] (tryParseFile (.ok (backupJson [validDoc, validDoc2])) []) =
        [validDoc, validDoc2].map (fun v => ⟨v.docId, v, true⟩) := by
  have h := backup_roundtrip [validDoc, validDoc2] (by decide) (by decide)
  exact ⟨by decide, by decide, h.1, h.2.2.2⟩

/-- C8: the nested state bridge resets the sub-editor exactly when the
incoming payload differs from the current serialized state, and feeding
the same payload twice in succession performs at most one replacement —
the second delivery is a no-op. -/
theorem sticky_bridge_guard (d state : String) :
    (stickyDataEffect (some d) state).2 = !(state == d)
    ∧ stickyDataEffect (some d) (stickyDataEffect (some d) state).1 =
        ((stickyDataEffect (some d) state).1, false) := by
  unfold stickyDataEffect
  by_cases h : state = d <;> simp [h]

/-- C9: when an imported document's id collides with an existing local
document, `addDocument` creates nothing and navigates nowhere — it only
records the overwrite-or-abort confirmation; declining runs no action and
leaves the store untouched; the confirmed overwrite action replaces the
stored content first and navigates only afterwards. -/
theorem addDocument_duplicate (documents : List StoredDoc) (doc : Json) (nav : Bool)
    (r : ParseResult)
    (hdup : documents.any (fun d => d.id == doc.docId && d.isLocal) = true) :
    (addDocument documents doc nav r).created = r.created
    ∧ (addDocument documents doc nav r).alerts = r.alerts ++ [(doc, nav)]
    ∧ (addDocument documents doc nav r).navs = r.navs
    ∧ finalStore documents (addDocument documents doc nav r) = finalStore documents r
    ∧ declineAction documents = documents
    ∧ (overwriteAction documents doc true).2 =
        [ImportEvent.update doc.docId, ImportEvent.navigate doc.docId] := by
  unfold addDocument
  simp [hdup, finalStore, declineAction, overwriteAction]

/-- Witness for the duplicate-import theorem: the imported document's id
matches the one pre-existing local document. -/
theorem addDocument_duplicate_witness :
    c5Store.any (fun d => d.id == validDoc.docId && d.isLocal) = true
    ∧ (addDocument c5Store validDoc true ParseResult.empty).created = []
    ∧ (addDocument c5Store validDoc true ParseResult.empty).alerts = [(validDoc, true)] := by
  have h := addDocument_duplicate c5Store validDoc true ParseResult.empty (by decide)
  exact ⟨by decide, h.1, h.2.1⟩

/-- C1: when the document's local head matches no revision id in the
local revision set nor in the cloud revision set, the reconciliation
reports unsaved changes and places first in the merged list a synthesized
placeholder whose id is the local head, whose documentId is the
document's id, whose createdAt is the document's updatedAt, and which
carries no explicit author — the implicit local user. -/
theorem documentInfo_unsaved (documentId : String) (documents : List UserDocument)
    (localRevisions : List LocalRevision) (ud : UserDocument) (ld : LocalDocument)
    (hud : documents.find? (fun d => d.id == documentId) = some ud)
    (hld : ud.localDoc = some ld)
    (hlocal : (localRevisions.filter (fun r => r.documentId == documentId)).any
        (fun r => r.id == ld.head) = false)
    (hcloud : ((ud.cloud.map CloudDocument.revisions).getD []).any
        (fun r => r.id == ld.head) = false) :
    (documentInfo documentId documents localRevisions).unsavedChanges = true
    ∧ (documentInfo documentId documents localRevisions).sortedRevisions.head? =
        some ⟨some ld.head, some ld.id, some ld.updatedAt, none⟩ := by
  unfold documentInfo
  rw [hud]
  simp only [Option.some_bind, hld, Option.map_some]
  simp [hlocal, hcloud]

/-- Witness for C1 at a concrete store: one document whose head "h1"
appears in neither revision set. -/
theorem documentInfo_unsaved_witness :
    ([(⟨"d1", some ⟨"d1", "Doc", "h1", 42⟩, none⟩ : UserDocument)].find?
        (fun d => d.id == "d1") = some ⟨"d1", some ⟨"d1", "Doc", "h1", 42⟩, none⟩)
    ∧ (documentInfo "d1" [⟨"d1", some ⟨"d1", "Doc", "h1", 42⟩, none⟩]
        [⟨"r9", "d1", 7⟩]).unsavedChanges = true
    ∧ (documentInfo "d1" [⟨"d1", some ⟨"d1", "Doc", "h1", 42⟩, none⟩]
        [⟨"r9", "d1", 7⟩]).sortedRevisions.head? =
        some ⟨some "h1", some "d1", some 42, none⟩ := by
  have h := documentInfo_unsaved "d1" [⟨"d1", some ⟨"d1", "Doc", "h1", 42⟩, none⟩]
    [⟨"r9", "d1", 7⟩] ⟨"d1", some ⟨"d1", "Doc", "h1", 42⟩, none⟩ ⟨"d1", "Doc", "h1", 42⟩
    (by decide) (by decide) (by decide) (by decide)
  exact ⟨by decide, h.1, h.2⟩

/-- C2: every document with both a local and a cloud side whose heads
differ reports the head out of sync, with no assumption on whether the
heads resolve to known revisions; and when in addition both head ids are
present as known revisions, the same reconciliation simultaneously
reports no unsaved changes — the two booleans are computed
independently of each other. -/
theorem documentInfo_outOfSync (documentId : String) (documents : List UserDocument)
    (localRevisions : List LocalRevision) (ud : UserDocument) (ld : LocalDocument)
    (cd : CloudDocument)
    (hud : documents.find? (fun d => d.id == documentId) = some ud)
    (hld : ud.localDoc = some ld)
    (hcd : ud.cloud = some cd)
    (hne : ld.head ≠ cd.head) :
    (documentInfo documentId documents localRevisions).isHeadOutOfSync = true
    ∧ (((localRevisions.filter (fun r => r.documentId == documentId)).any
            (fun r => r.id == ld.head)
          || cd.revisions.any (fun r => r.id == ld.head)) = true →
        ((localRevisions.filter (fun r => r.documentId == documentId)).any
            (fun r => r.id == cd.head)
          || cd.revisions.any (fun r => r.id == cd.head)) = true →
        (documentInfo documentId documents localRevisions).unsavedChanges = false) := by
  unfold documentInfo
  rw [hud]
  simp only [Option.some_bind, hld, hcd, Option.map_some]
  constructor
  · simp [bne, hne]
  · intro hkl _hkc
    simp only [Option.map_some', Option.getD_some]
    rw [show (fun (r : LocalRevision) => (some r.id : Option String) == some ld.head) =
        (fun r => r.id == ld.head) from funext (fun r => by simp),
      show (fun (r : CloudRevision) => (some r.id : Option String) == some ld.head) =
        (fun r => r.id == ld.head) from funext (fun r => by simp),
      ← Bool.not_or, hkl]
    rfl

/-- Witness for C2: both heads differ and both are present among the
cloud revisions. -/
theorem documentInfo_outOfSync_witness :
    ("a" : String) ≠ "b"
    ∧ (documentInfo "d1"
        [⟨"d1", some ⟨"d1", "Doc", "a", 42⟩,
          some ⟨"d1", "b", ⟨"u1", "U1"⟩, [],
            [⟨"a", "d1", 1, ⟨"u1", "U1"⟩⟩, ⟨"b", "d1", 2, ⟨"u1", "U1"⟩⟩], true, false⟩⟩]
        []).isHeadOutOfSync = true
    ∧ (documentInfo "d1"
        [⟨"d1", some ⟨"d1", "Doc", "a", 42⟩,
          some ⟨"d1", "b", ⟨"u1", "U1"⟩, [],
            [⟨"a", "d1", 1, ⟨"u1", "U1"⟩⟩, ⟨"b", "d1", 2, ⟨"u1", "U1"⟩⟩], true, false⟩⟩]
        []).unsavedChanges = false := by
  have h := documentInfo_outOfSync "d1"
    [⟨"d1", some ⟨"d1", "Doc", "a", 42⟩,
      some ⟨"d1", "b", ⟨"u1", "U1"⟩, [],
        [⟨"a", "d1", 1, ⟨"u1", "U1"⟩⟩, ⟨"b", "d1", 2, ⟨"u1", "U1"⟩⟩], true, false⟩⟩]
    [] ⟨"d1", some ⟨"d1", "Doc", "a", 42⟩,
      some ⟨"d1", "b", ⟨"u1", "U1"⟩, [],
        [⟨"a", "d1", 1, ⟨"u1", "U1"⟩⟩, ⟨"b", "d1", 2, ⟨"u1", "U1"⟩⟩], true, false⟩⟩
    ⟨"d1", "Doc", "a", 42⟩
    ⟨"d1", "b", ⟨"u1", "U1"⟩, [],
      [⟨"a", "d1", 1, ⟨"u1", "U1"⟩⟩, ⟨"b", "d1", 2, ⟨"u1", "U1"⟩⟩], true, false⟩
    (by decide) (by decide) (by decide) (by decide)
  exact ⟨by decide, h.1, h.2 (by decide) (by decide)⟩

/-- C10: a document with a cloud side but no local side always reports
unsaved changes (the absent head, read as `undefined`, matches no
revision id), and the merged list starts with a placeholder all of whose
fields are `undefined`. -/
theorem documentInfo_cloudOnly (documentId : String) (documents : List UserDocument)
    (localRevisions : List LocalRevision) (ud : UserDocument) (cd : CloudDocument)
    (hud : documents.find? (fun d => d.id == documentId) = some ud)
    (hld : ud.localDoc = none)
    (hcd : ud.cloud = some cd) :
    (documentInfo documentId documents localRevisions).unsavedChanges = true
    ∧ (documentInfo documentId documents localRevisions).sortedRevisions.head? =
        some ⟨none, none, none, none⟩ := by
  unfold documentInfo
  rw [hud]
  simp only [Option.some_bind, hld, hcd, Option.map_none]
  simp

/-- Witness for C10 at a cloud-only document whose cloud side carries one
revision. -/
theorem documentInfo_cloudOnly_witness :
    (documentInfo "d1"
      [⟨"d1", none,
        some ⟨"d1", "b", ⟨"u1", "U1"⟩, [], [⟨"b", "d1", 2, ⟨"u1", "U1"⟩⟩], true, false⟩⟩]
      []).unsavedChanges = true
    ∧ (documentInfo "d1"
      [⟨"d1", none,
        some ⟨"d1", "b", ⟨"u1", "U1"⟩, [], [⟨"b", "d1", 2, ⟨"u1", "U1"⟩⟩], true, false⟩⟩]
      []).sortedRevisions.head? = some ⟨none, none, none, none⟩ := by
  have h := documentInfo_cloudOnly "d1"
    [⟨"d1", none,
      some ⟨"d1", "b", ⟨"u1", "U1"⟩, [], [⟨"b", "d1", 2, ⟨"u1", "U1"⟩⟩], true, false⟩⟩]
    [] ⟨"d1", none,
      some ⟨"d1", "b", ⟨"u1", "U1"⟩, [], [⟨"b", "d1", 2, ⟨"u1", "U1"⟩⟩], true, false⟩⟩
    ⟨"d1", "b", ⟨"u1", "U1"⟩, [], [⟨"b", "d1", 2, ⟨"u1", "U1"⟩⟩], true, false⟩
    (by decide) (by decide) (by decide)
  exact h

/-- Revisions with equal keys relate both ways under the sort order. -/
theorem revGe_of_eq_createdAt {a b : UserRevision} (h : a.createdAt = b.createdAt) :
    revGe a b := by
  unfold revGe
  omega

/-- One step of the union fold. -/
theorem unionRevisions_cons (acc : List UserRevision) (r : UserRevision)
    (l : List UserRevision) :
    unionRevisions acc (r :: l) =
      unionRevisions (if acc.any (fun x => x.id == r.id) then acc else acc ++ [r]) l := rfl

/-- The ids covered by the union are exactly the ids of the two inputs. -/
theorem unionRevisions_covers (l acc : List UserRevision) (i : String) :
    (∃ x ∈ unionRevisions acc l, x.id = i) ↔
      (∃ x ∈ acc, x.id = i) ∨ (∃ x ∈ l, x.id = i) := by
  induction l generalizing acc with
  | nil => simp [unionRevisions]
  | cons r l ih =>
    rw [unionRevisions_cons, ih]
    by_cases h : acc.any (fun x => x.id == r.id) = true
    · rw [if_pos h]
      constructor
      · rintro (h1 | h1)
        · exact Or.inl h1
        · rcases h1 with ⟨x, hx, hxi⟩
          exact Or.inr ⟨x, List.mem_cons_of_mem _ hx, hxi⟩
      · rintro (h1 | h1)
        · exact Or.inl h1
        · rcases h1 with ⟨x, hx, hxi⟩
          rcases List.mem_cons.mp hx with hx | hx
          · subst hx
            rcases List.any_eq_true.mp h with ⟨y, hy, hye⟩
            exact Or.inl ⟨y, hy, (beq_iff_eq.mp hye).trans hxi⟩
          · exact Or.inr ⟨x, hx, hxi⟩
    · rw [if_neg h]
      constructor
      · rintro (h1 | h1)
        · rcases h1 with ⟨x, hx, hxi⟩
          rcases List.mem_append.mp hx with hx | hx
          · exact Or.inl ⟨x, hx, hxi⟩
          · have hx' : x = r := by simpa using hx
            subst hx'
            exact Or.inr ⟨x, List.mem_cons_self _ _, hxi⟩
        · rcases h1 with ⟨x, hx, hxi⟩
          exact Or.inr ⟨x, List.mem_cons_of_mem _ hx, hxi⟩
      · rintro (h1 | h1)
        · rcases h1 with ⟨x, hx, hxi⟩
          exact Or.inl ⟨x, List.mem_append_left _ hx, hxi⟩
        · rcases h1 with ⟨x, hx, hxi⟩
          rcases List.mem_cons.mp hx with hx | hx
          · subst hx
            exact Or.inl ⟨x, List.mem_append_right _ (List.mem_cons_self _ _), hxi⟩
          · exact Or.inr ⟨x, hx, hxi⟩

/-- The union deduplicates by id: if the accumulator ids are distinct, so
are the ids of the union. -/
theorem unionRevisions_nodup (l acc : List UserRevision)
    (hacc : (acc.map UserRevision.id).Nodup) :
    ((unionRevisions acc l).map UserRevision.id).Nodup := by
  induction l generalizing acc with
  | nil => exact hacc
  | cons r l ih =>
    rw [unionRevisions_cons]
    by_cases h : acc.any (fun x => x.id == r.id) = true
    · rw [if_pos h]
      exact ih acc hacc
    · rw [if_neg h]
      refine ih _ ?_
      rw [List.map_append]
      refine ((List.perm_append_singleton _ _).nodup_iff).mpr ?_
      refine List.nodup_cons.mpr ⟨?_, hacc⟩
      intro hmem
      rcases List.mem_map.mp hmem with ⟨y, hy, hyid⟩
      exact h (List.any_eq_true.mpr ⟨y, hy, beq_iff_eq.mpr hyid⟩)

/-- The stable sort does not reorder entries with equal `createdAt`. -/
theorem sortRevisions_filter_stable (u : List UserRevision) (t : Nat) :
    (sortRevisions u).filter (fun r => r.createdAt == t) =
      u.filter (fun r => r.createdAt == t) := by
  set p : UserRevision → Bool := fun r => r.createdAt == t with hp
  have hpair : (u.filter p).Pairwise revGe := by
    refine List.pairwise_of_forall_mem_list ?_
    intro a ha b hb
    have ha' : a.createdAt = t := by
      have := (List.mem_filter.mp ha).2
      simpa [hp] using this
    have hb' : b.createdAt = t := by
      have := (List.mem_filter.mp hb).2
      simpa [hp] using this
    exact revGe_of_eq_createdAt (ha'.trans hb'.symm)
  have h1 : List.Sublist (u.filter p) (sortRevisions u) :=
    List.sublist_insertionSort hpair (List.filter_sublist u)
  have h2 : List.Sublist ((u.filter p).filter p) ((sortRevisions u).filter p) := h1.filter p
  have h3 : (u.filter p).filter p = u.filter p :=
    List.filter_eq_self.mpr (fun a ha => (List.mem_filter.mp ha).2)
  rw [h3] at h2
  have hlen : ((sortRevisions u).filter p).length = (u.filter p).length :=
    ((List.perm_insertionSort revGe u).filter p).length_eq
  exact (h2.eq_of_length hlen.symm).symm

/-- C3, amended: the merged list is a permutation of the id-deduplicated
union (cloud revisions first, then local-only revisions), sorted by
`createdAt` descending; ties in `createdAt` keep the union order — the
sort is stable — rather than being broken by revision id; when the cloud
revision ids are distinct, the merged ids are distinct; and the merged
ids cover exactly the ids of both sides. -/
theorem mergedRevisionList_spec (cloudRevs : List CloudRevision)
    (localRevs : List LocalRevision)
    (hnd : (cloudRevs.map CloudRevision.id).Nodup) :
    List.Perm (mergedRevisionList cloudRevs localRevs)
      (unionRevisions (cloudRevs.map CloudRevision.toUser)
        (localRevs.map LocalRevision.toUser))
    ∧ (mergedRevisionList cloudRevs localRevs).Sorted revGe
    ∧ (∀ t, (mergedRevisionList cloudRevs localRevs).filter (fun r => r.createdAt == t) =
        (unionRevisions (cloudRevs.map CloudRevision.toUser)
          (localRevs.map LocalRevision.toUser)).filter (fun r => r.createdAt == t))
    ∧ ((mergedRevisionList cloudRevs localRevs).map UserRevision.id).Nodup
    ∧ (∀ i, (∃ x ∈ mergedRevisionList cloudRevs localRevs, x.id = i) ↔
        ((∃ x ∈ cloudRevs, x.id = i) ∨ (∃ x ∈ localRevs, x.id = i))) := by
  have hperm : List.Perm (mergedRevisionList cloudRevs localRevs)
      (unionRevisions (cloudRevs.map CloudRevision.toUser)
        (localRevs.map LocalRevision.toUser)) :=
    List.perm_insertionSort revGe _
  refine ⟨hperm, List.sorted_insertionSort revGe _, fun t => sortRevisions_filter_stable _ t,
    ?_, ?_⟩
  · have hu : (((unionRevisions (cloudRevs.map CloudRevision.toUser)
        (localRevs.map LocalRevision.toUser))).map UserRevision.id).Nodup := by
      refine unionRevisions_nodup _ _ ?_
      rw [List.map_map]
      exact hnd
    exact ((hperm.map UserRevision.id).nodup_iff).mpr hu
  · intro i
    have hcov := unionRevisions_covers (localRevs.map LocalRevision.toUser)
      (cloudRevs.map CloudRevision.toUser) i
    constructor
    · intro ⟨x, hx, hxi⟩
      have hx' : x ∈ unionRevisions (cloudRevs.map CloudRevision.toUser)
          (localRevs.map LocalRevision.toUser) := hperm.mem_iff.mp hx
      rcases hcov.mp ⟨x, hx', hxi⟩ with h | h
      · rcases h with ⟨y, hy, hyi⟩
        rcases List.mem_map.mp hy with ⟨z, hz, hzy⟩
        exact Or.inl ⟨z, hz, by rw [← hzy] at hyi; exact hyi⟩
      · rcases h with ⟨y, hy, hyi⟩
        rcases List.mem_map.mp hy with ⟨z, hz, hzy⟩
        exact Or.inr ⟨z, hz, by rw [← hzy] at hyi; exact hyi⟩
    · intro h
      have : ∃ x ∈ unionRevisions (cloudRevs.map CloudRevision.toUser)
          (localRevs.map LocalRevision.toUser), x.id = i := by
        refine hcov.mpr ?_
        rcases h with ⟨z, hz, hzi⟩ | ⟨z, hz, hzi⟩
        · exact Or.inl ⟨z.toUser, List.mem_map_of_mem _ hz, hzi⟩
        · exact Or.inr ⟨z.toUser, List.mem_map_of_mem _ hz, hzi⟩
      rcases this with ⟨x, hx, hxi⟩
      exact ⟨x, hperm.mem_iff.mpr hx, hxi⟩

/-- C3 counterexample: with one cloud revision "b" and local revisions
"c", "a", all sharing one `createdAt`, the merged order is b, c, a — the
union order, matching neither ascending nor descending id order; and the
two symmetric single-revision inputs produce the same (createdAt, id)
pairs in opposite orders, so no id tie-break determines the order. -/
theorem mergedRevisionList_tiebreak_cex :
    (mergedRevisionList cexCloudRevs cexLocalRevs).map (fun r => (r.createdAt, r.id)) =
      [(5, "b"), (5, "c"), (5, "a")]
    ∧ (mergedRevisionList [⟨"a", "d", 5, ⟨"u1", "U1"⟩⟩] [⟨"b", "d", 5⟩]).map
        (fun r => (r.createdAt, r.id)) = [(5, "a"), (5, "b")]
    ∧ (mergedRevisionList [⟨"b", "d", 5, ⟨"u1", "U1"⟩⟩] [⟨"a", "d", 5⟩]).map
        (fun r => (r.createdAt, r.id)) = [(5, "b"), (5, "a")] :=
  ⟨rfl, rfl, rfl⟩

/-- Witness for the amended C3 theorem at the concrete revision lists. -/
theorem mergedRevisionList_spec_witness :
    (cexCloudRevs.map CloudRevision.id).Nodup
    ∧ ((mergedRevisionList cexCloudRevs cexLocalRevs).map UserRevision.id).Nodup
    ∧ (mergedRevisionList cexCloudRevs cexLocalRevs).Sorted revGe := by
  have h := mergedRevisionList_spec cexCloudRevs cexLocalRevs (by decide)
  exact ⟨by decide, h.2.2.2.1, h.2.1⟩

/-- The collaborator reduction is the author-wise fold of `addUniqueUser`
over the revision authors that pass the author/coauthor exclusion. -/
theorem collabFold_eq_addUnique (d : CloudDocument) (revs : List CloudRevision)
    (acc : List MUser) :
    revs.foldl (collabStep d) acc =
      ((revs.map CloudRevision.author).filter (isOutsideAuthor d)).foldl addUniqueUser acc := by
  induction revs generalizing acc with
  | nil => rfl
  | cons r revs ih =>
    rw [List.foldl_cons, List.map_cons]
    by_cases ho : isOutsideAuthor d r.author = true
    · rw [List.filter_cons_of_pos ho, List.foldl_cons, ih]
      have ho2 : (r.author.id != d.author.id) = true
          ∧ (!(d.coauthors.any (fun u => u.id == r.author.id))) = true := by
        unfold isOutsideAuthor at ho
        simp only [Bool.and_eq_true] at ho
        exact ho
      have hA := ho2.1
      have hB := ho2.2
      have hstep : collabStep d acc r = addUniqueUser acc r.author := by
        unfold collabStep addUniqueUser
        rw [hA, hB]
        cases hC : acc.any (fun u => u.id == r.author.id) <;> simp
      rw [hstep]
    · have ho' : isOutsideAuthor d r.author = false := Bool.not_eq_true _ ▸ ho
      rw [List.filter_cons_of_neg (by rw [ho']; simp), ih]
      have hstep : collabStep d acc r = acc := by
        unfold collabStep
        unfold isOutsideAuthor at ho'
        rcases Bool.and_eq_false_iff.mp ho' with h | h
        · rw [h]
          simp
        · rw [h]
          simp
      rw [hstep]

/-- Folding `addUniqueUser` appends, in first-seen order, the ids not
already represented in the accumulator. -/
theorem addUnique_foldl (l : List MUser) (acc : List MUser) :
    l.foldl addUniqueUser acc =
      acc ++ dedupById (l.filter (fun u => !(acc.any (fun v => v.id == u.id)))) := by
  induction l generalizing acc with
  | nil => simp [dedupById]
  | cons u us ih =>
    rw [List.foldl_cons]
    by_cases h : acc.any (fun v => v.id == u.id) = true
    · have hstep : addUniqueUser acc u = acc := by
        unfold addUniqueUser
        rw [h]
        simp
      rw [hstep, ih]
      congr 1
      rw [List.filter_cons_of_neg (by rw [h]; simp)]
    · have h' : acc.any (fun v => v.id == u.id) = false := Bool.not_eq_true _ ▸ h
      have hstep : addUniqueUser acc u = acc ++ [u] := by
        unfold addUniqueUser
        rw [h']
        simp
      rw [hstep, ih, List.filter_cons_of_pos (by rw [h']; simp)]
      rw [show dedupById (u :: us.filter (fun w => !(acc.any (fun v => v.id == w.id)))) =
          u :: dedupById ((us.filter (fun w => !(acc.any (fun v => v.id == w.id)))).filter
            (fun v => v.id != u.id)) from by rw [dedupById]]
      rw [List.append_assoc, List.singleton_append]
      congr 2
      rw [List.filter_filter]
      congr 1
      refine List.filter_congr ?_
      intro w _
      rw [List.any_append]
      by_cases h1 : w.id = u.id
      · simp [h1, bne]
      · have e1 : (u.id == w.id) = false :=
          beq_eq_false_iff_ne.mpr (fun hh => h1 hh.symm)
        have e2 : (w.id == u.id) = false := beq_eq_false_iff_ne.mpr h1
        simp [e1, e2, bne]

/-- C4: for a collaborative cloud document (`published && collab`), the
derived collaborator list is exactly the list of revision authors that
are neither the document author nor a listed coauthor, deduplicated by
user id in order of first appearance in the revision list. -/
theorem collaborators_spec (d : CloudDocument) (hp : d.published = true)
    (hc : d.collab = true) :
    collaborators d =
      dedupById ((d.revisions.map CloudRevision.author).filter (isOutsideAuthor d)) := by
  unfold collaborators
  rw [hp, hc]
  simp only [Bool.and_self, if_true]
  rw [collabFold_eq_addUnique, addUnique_foldl]
  simp

/-- Witness for C4 at the example document: author U1, coauthors [U2],
revisions authored by U1, U2, U3, U3, U1 — the collaborator list is
exactly [U3]. -/
theorem collaborators_spec_witness :
    c4ExampleDoc.published = true ∧ c4ExampleDoc.collab = true
    ∧ collaborators c4ExampleDoc = [⟨"u3", "U3"⟩] := by
  have h := collaborators_spec c4ExampleDoc rfl rfl
  refine ⟨rfl, rfl, h.trans ?_⟩
  rw [show (c4ExampleDoc.revisions.map CloudRevision.author).filter
      (isOutsideAuthor c4ExampleDoc) = [⟨"u3", "U3"⟩, ⟨"u3", "U3"⟩] from by decide]
  rw [dedupById]
  rw [show ([(⟨"u3", "U3"⟩ : MUser)].filter (fun v => v.id != "u3")) = [] from by decide]
  rw [dedupById]
